import Mathlib

/-!
Shallow embedding of the euroxref currency-conversion library (euroxref.go).

Modelling conventions:
* Go float64 values are modelled as exact rationals; the rounding error of
  IEEE-754 binary arithmetic is idealized away.  Values whose computation in Go
  passes through an implementation-dependent conversion (converting a negative
  or too-large float64 to uint64, dividing by a zero rate) are modelled as
  Option.none, meaning "some implementation-dependent float64".
* Go (value, error) returns become Except or Option; mutation of the Client
  receiver becomes explicit state passing (the function returns the new Client).
* time.Time is modelled as a whole number of seconds since Go's zero time
  (January 1, year 1).  lastFetched = 0 is the zero time, i.e. "never fetched".
  time.Time.Sub returns an int64 of nanoseconds and saturates at the maximal
  duration (2^63 - 1 nanoseconds, about 292 years); elapsedSeconds reproduces
  that saturation.
* The HTTP transport and the XML decoder are external collaborators.  Their
  behaviour during one GET is a FetchOutcome value carried in an Env together
  with the current clock; within a single API call the clock and the network
  outcome are held fixed.  On a decode error Go's xml.Decode leaves the target
  structure partially populated; the decodeErr constructor carries that
  (arbitrary) document.
* strconv.ParseFloat is modelled for plain decimal numerals (optional sign,
  digits, at most one dot); its bitSize-32 argument rounds the value to the
  nearest binary32 in Go, which this rational model idealizes as exact parsing.
* Dereferencing the nil XRefData pointer (possible when a fetch is skipped
  although no document was ever stored) panics in Go; the model returns the
  distinguished error nilFeedPanic.
-/

namespace Euroxref

/-- Go constant EUCurr, the identifier for the Euro currency. -/
def EUCurr : String := "EUR"

/-- Go constant EURate, the exchange rate of the reference currency. -/
def EURate : ℚ := 1

/-- Truncation toward zero, the first step of Go's float-to-integer
conversion. -/
def goTrunc (x : ℚ) : ℤ := if x < 0 then ⌈x⌉ else ⌊x⌋

/-- Go conversion of a float64 to uint64: truncate toward zero; if the
truncated value is not representable in uint64 the Go specification makes the
result implementation-dependent, modelled as none. -/
def goFloatToUInt64 (x : ℚ) : Option ℕ :=
  let t := goTrunc x
  if 0 ≤ t ∧ t < 2 ^ 64 then some t.toNat else none

/-- math.Copysign(0.5, num) from roundFloat. -/
def copysignHalf (num : ℚ) : ℚ := if num < 0 then -(1 / 2) else 1 / 2

/-- roundFloat from euroxref.go: uint64(num + math.Copysign(0.5, num)). -/
def roundFloat (num : ℚ) : Option ℕ := goFloatToUInt64 (num + copysignHalf num)

/-- FloatToFixed from euroxref.go: force the precision to at least one, scale
by 10^prec, round via roundFloat, rescale. -/
def FloatToFixed (num : ℚ) (prec : ℤ) : Option ℚ :=
  (roundFloat (num * (10 : ℚ) ^ (if prec < 1 then 1 else prec).toNat)).map
    (fun n : ℕ => (n : ℚ) / (10 : ℚ) ^ (if prec < 1 then 1 else prec).toNat)

/-- RawExchangeRate: one currency record from the XML feed. -/
structure RawExchangeRate where
  Currency : String
  Rate : String
deriving DecidableEq

/-- XRefRawData: one day's record in the XML feed. -/
structure XRefRawData where
  RateTime : String
  Rates : List RawExchangeRate
deriving DecidableEq

/-- XRefRawResponse: the whole decoded feed document. -/
structure XRefRawResponse where
  Data : List XRefRawData
deriving DecidableEq

/-- ExchangeRate: a parsed currency/rate pair.  The rate is an Option because a
rounded Go float64 can be implementation-dependent (see module docstring). -/
structure ExchangeRate where
  Currency : String
  Rate : Option ℚ
deriving DecidableEq

/-- ExchangeRate.Round from euroxref.go: replace the rate by its FloatToFixed
rounding (the Go method mutates the receiver and also returns the value; only
the updated record is observable downstream). -/
def ExchangeRate.Round (e : ExchangeRate) (prec : ℤ) : ExchangeRate :=
  { e with Rate := e.Rate.bind (fun v => FloatToFixed v prec) }

/-- Numeric value of a decimal digit character. -/
def digitVal (c : Char) : Option ℕ :=
  if '0' ≤ c ∧ c ≤ '9' then some (c.toNat - Char.toNat '0') else none

/-- Accumulating parse of a digit string. -/
def parseDigitsAux : List Char → ℕ → Option ℕ
  | [], acc => some acc
  | c :: cs, acc =>
    match digitVal c with
    | none => none
    | some d => parseDigitsAux cs (acc * 10 + d)

/-- Unsigned decimal numeral: digits with at most one dot, at least one digit
overall. -/
def parseUnsignedDecimal (cs : List Char) : Option ℚ :=
  let intPart := cs.takeWhile (fun c => c ≠ '.')
  let rest := cs.dropWhile (fun c => c ≠ '.')
  match rest with
  | [] =>
    if intPart = [] then none
    else (parseDigitsAux intPart 0).map (fun n : ℕ => (n : ℚ))
  | _ :: frac =>
    if intPart = [] ∧ frac = [] then none
    else
      match parseDigitsAux intPart 0, parseDigitsAux frac 0 with
      | some i, some f => some ((i : ℚ) + (f : ℚ) / (10 : ℚ) ^ frac.length)
      | _, _ => none

/-- strconv.ParseFloat restricted to plain decimal numerals (the only forms
appearing in this development); exotic accepted forms such as exponents or hex
floats are out of scope and yield none, and the bitSize-32 rounding done by Go
is idealized as exact (see module docstring). -/
def goParseFloat (s : String) : Option ℚ :=
  match s.data with
  | [] => none
  | '+' :: cs => parseUnsignedDecimal cs
  | '-' :: cs => (parseUnsignedDecimal cs).map Neg.neg
  | cs => parseUnsignedDecimal cs

/-- A calendar date, the observable content of the time.Time values used by the
library (the layout 2006-01-02 ignores clock-of-day fields). -/
structure GoTime where
  year : ℕ
  month : ℕ
  day : ℕ
deriving DecidableEq

/-- Gregorian leap-year rule, as implemented by Go's time package. -/
def isLeapYear (y : ℕ) : Bool :=
  (y % 4 == 0 && y % 100 != 0) || y % 400 == 0

/-- Number of days of a month, as validated by Go's time.Parse. -/
def daysInMonth (y m : ℕ) : ℕ :=
  if m = 2 then (if isLeapYear y then 29 else 28)
  else if m = 4 ∨ m = 6 ∨ m = 9 ∨ m = 11 then 30
  else 31

/-- Two decimal digit characters as a number. -/
def twoDigits (a b : Char) : Option ℕ := do
  let x ← digitVal a
  let y ← digitVal b
  pure (x * 10 + y)

/-- time.Parse with the layout 2006-01-02 (XRefDateLayout): exactly the shape
YYYY-MM-DD with a calendar-valid month and day. -/
def parseDate (s : String) : Option GoTime :=
  match s.data with
  | [y1, y2, y3, y4, '-', m1, m2, '-', d1, d2] => do
    let yh ← twoDigits y1 y2
    let yl ← twoDigits y3 y4
    let mo ← twoDigits m1 m2
    let dy ← twoDigits d1 d2
    let y := yh * 100 + yl
    if 1 ≤ mo ∧ mo ≤ 12 ∧ 1 ≤ dy ∧ dy ≤ daysInMonth y mo then
      pure (GoTime.mk y mo dy)
    else none
  | _ => none

/-- Left-pad a numeral with zeros to k characters. -/
def padNum (k n : ℕ) : String :=
  let s := Nat.repr n
  String.mk (List.replicate (k - s.length) '0') ++ s

def dashStr : String := "-"

/-- time.Time.Format with the layout 2006-01-02 (XRefDateLayout). -/
def formatDate (t : GoTime) : String :=
  padNum 4 t.year ++ dashStr ++ padNum 2 t.month ++ dashStr ++ padNum 2 t.day

/-- The error taxonomy of the library, one constructor per distinct error
message produced in euroxref.go, carrying the data interpolated into the
message.  nilFeedPanic models the run-time nil-pointer dereference that occurs
when a lookup runs although no document was ever stored. -/
inductive Err where
  | fetchFailed : Err
  | malformedRate (currency rate : String) : Err
  | dateNotFound (timeKey : String) : Err
  | unknownCurrency (source target : String) (available : List String)
      (timeKey : String) : Err
  | invalidAmount : Err
  | timeParseFailed (value : String) : Err
  | nilFeedPanic : Err
deriving DecidableEq

/-- newExchangeRate from euroxref.go: parse the raw rate string, failing with
the invalid-input-rate error on a malformed string. -/
def newExchangeRate (r : RawExchangeRate) : Except Err ExchangeRate :=
  match goParseFloat r.Rate with
  | none => .error (.malformedRate r.Currency r.Rate)
  | some v => .ok { Currency := r.Currency, Rate := some v }

/-- Client state: cached document (nil initially), refresh interval, precision,
and the last-fetch timestamp (0 = Go's zero time = never fetched). -/
structure Client where
  XRefData : Option XRefRawResponse
  RefreshInterval : ℤ
  prec : ℤ
  lastFetched : ℕ
deriving DecidableEq

/-- Outcome of one HTTP GET plus XML decode: transport error, decode error
(carrying the partially populated document the decoder leaves behind), or a
successfully decoded document. -/
inductive FetchOutcome where
  | transportErr : FetchOutcome
  | decodeErr (doc : XRefRawResponse) : FetchOutcome
  | ok (doc : XRefRawResponse) : FetchOutcome
deriving DecidableEq

/-- External environment of one API call: the clock (seconds since Go's zero
time) and the network outcome, held fixed during the call. -/
structure Env where
  now : ℕ
  outcome : FetchOutcome
deriving DecidableEq

/-- Go conversion uint → int on a 64-bit platform (two's-complement wrap). -/
def intOfUInt (n : ℕ) : ℤ := if n < 2 ^ 63 then (n : ℤ) else (n : ℤ) - 2 ^ 64

/-- New from euroxref.go: fresh client with empty cache. -/
def New (precision refreshInterval : ℕ) : Client :=
  { XRefData := none
    RefreshInterval := intOfUInt refreshInterval
    prec := intOfUInt precision
    lastFetched := 0 }

/-- Largest value of Go's time.Duration, in nanoseconds. -/
def maxDurationNs : ℕ := 2 ^ 63 - 1

/-- int(time.Now().Sub(c.lastFetched).Seconds()): the difference saturates at
the maximal Duration, Seconds divides by 10^9, int truncates. -/
def elapsedSeconds (now last : ℕ) : ℕ :=
  min ((now - last) * 1000000000) maxDurationNs / 1000000000

/-- The guard of fetchXML: skip the download when the elapsed seconds since
the last fetch are below a positive RefreshInterval. -/
def shouldSkip (c : Client) (now : ℕ) : Bool :=
  decide ((elapsedSeconds now c.lastFetched : ℤ) < c.RefreshInterval) &&
    decide (0 < c.RefreshInterval)

/-- fetchXML from euroxref.go.  When the guard does not skip: a transport error
returns early, leaving the client unchanged; otherwise the decoded (or, on a
decode error, partially decoded) document is stored and the timestamp advanced
unconditionally, the decode error being returned alongside. -/
def fetchXML (c : Client) (env : Env) : Client × Option Err :=
  if shouldSkip c env.now then (c, none)
  else
    match env.outcome with
    | .transportErr => (c, some .fetchFailed)
    | .decodeErr doc =>
      ({ c with XRefData := some doc, lastFetched := env.now }, some .fetchFailed)
    | .ok doc =>
      ({ c with XRefData := some doc, lastFetched := env.now }, none)

/-- The day-scan loop of Fetch: first record whose RateTime equals the time
key (the Go loop breaks on the first match), defaulting to the empty list. -/
def lookupDay (resp : XRefRawResponse) (timeKey : String) : List RawExchangeRate :=
  ((resp.Data.find? (fun d => d.RateTime == timeKey)).map XRefRawData.Rates).getD []

/-- The record loop of Fetch: parse each raw record, aborting on the first
malformed rate, and round each parsed rate to the client precision. -/
def resolveRates (rs : List RawExchangeRate) (prec : ℤ) :
    Except Err (List ExchangeRate) :=
  match rs with
  | [] => .ok []
  | r :: rest =>
    match newExchangeRate r with
    | .error e => .error e
    | .ok v => (resolveRates rest prec).map (fun tail => v.Round prec :: tail)

/-- The post-refresh part of Fetch: locate the requested day by its formatted
date, treat a missing or empty day as date-not-found, and resolve every raw
record. -/
def fetchBody (resp : XRefRawResponse) (timeKey : String) (prec : ℤ) :
    Except Err (List ExchangeRate) :=
  let dayData := lookupDay resp timeKey
  if dayData.length = 0 then .error (.dateNotFound timeKey)
  else resolveRates dayData prec

/-- Fetch from euroxref.go: refresh the cache, then run the lookup body on the
cached document. -/
def Fetch (c : Client) (env : Env) (t : GoTime) :
    Client × Except Err (List ExchangeRate) :=
  match fetchXML c env with
  | (c1, some e) => (c1, .error e)
  | (c1, none) =>
    match c1.XRefData with
    | none => (c1, .error .nilFeedPanic)
    | some resp => (c1, fetchBody resp (formatDate t) c1.prec)

/-- The leg-scan loop of Convert for one code: the Go loop keeps overwriting,
so the last matching record wins. -/
def scanLeg (code : String) (rs : List ExchangeRate) : Option ExchangeRate :=
  rs.foldl (fun acc r => if code = r.Currency then some r else acc) none

/-- The synthetic record injected for the reference currency. -/
def euroRec : ExchangeRate := { Currency := EUCurr, Rate := some EURate }

/-- The leg resolution of Convert: scan the day's list for each code (the
single Go loop scans for both codes independently, split here into two
identical scans), then override either leg with the synthetic EUR record when
its code is the reference currency. -/
def resolveLegs (rs : List ExchangeRate) (source target : String) :
    Option ExchangeRate × Option ExchangeRate :=
  let i := scanLeg source rs
  let t := scanLeg target rs
  if source = EUCurr ∨ target = EUCurr then
    (if source = EUCurr then some euroRec else i,
     if target = EUCurr then some euroRec else t)
  else (i, t)

/-- computeExchangeValue from euroxref.go: reject a negative amount, apply the
identity shortcut (still rounding), otherwise round the amount to 2 digits,
round the cross rate to the client precision, and round the product again.
A division by a zero rate produces a non-finite float64 in Go whose later
conversion is implementation-dependent, hence the none guard. -/
def computeExchangeValue (prec : ℤ) (amount : ℚ) (inR toR : ExchangeRate) :
    Except Err (Option ℚ) :=
  if amount < 0 then .error .invalidAmount
  else if inR.Currency = toR.Currency then .ok (FloatToFixed amount prec)
  else
    .ok (do
      let ri ← inR.Rate
      let rt ← toR.Rate
      let cross ← if ri = 0 then none else FloatToFixed (rt / ri) prec
      let a2 ← FloatToFixed amount 2
      FloatToFixed (a2 * cross) prec)

/-- Convert from euroxref.go: fetch the day, resolve both legs, fail with the
invalid-currencies error when a leg is missing, else compute. -/
def Convert (c : Client) (env : Env) (amount : ℚ) (source target : String)
    (t : GoTime) : Client × Except Err (Option ℚ) :=
  match Fetch c env t with
  | (c1, .error e) => (c1, .error e)
  | (c1, .ok dayData) =>
    match resolveLegs dayData source target with
    | (some inR, some toR) => (c1, computeExchangeValue c1.prec amount inR toR)
    | _ =>
      (c1, .error (.unknownCurrency source target
        (dayData.map ExchangeRate.Currency) (formatDate t)))

/-- The loop of FetchAll: parse each day stamp, fetch that day, abort on the
first failure of either step. -/
def fetchAllLoop (c : Client) (env : Env) :
    List XRefRawData → Client × Except Err (List (GoTime × List ExchangeRate))
  | [] => (c, .ok [])
  | d :: rest =>
    match parseDate d.RateTime with
    | none => (c, .error (.timeParseFailed d.RateTime))
    | some t =>
      match Fetch c env t with
      | (c1, .error e) => (c1, .error e)
      | (c1, .ok rates) =>
        match fetchAllLoop c1 env rest with
        | (c2, .error e) => (c2, .error e)
        | (c2, .ok acc) => (c2, .ok ((t, rates) :: acc))

/-- FetchAll from euroxref.go: refresh once, then resolve every cached day
(the Go map keyed by time is modelled as the association list in feed order;
no claim depends on map iteration order). -/
def FetchAll (c : Client) (env : Env) :
    Client × Except Err (List (GoTime × List ExchangeRate)) :=
  match fetchXML c env with
  | (c1, some e) => (c1, .error e)
  | (c1, none) =>
    match c1.XRefData with
    | none => (c1, .error .nilFeedPanic)
    | some resp => fetchAllLoop c1 env resp.Data

/-- Success test for Except, used to state fail-fast hypotheses decidably. -/
def exceptIsOk {ε α : Type} (x : Except ε α) : Bool :=
  match x with
  | .ok _ => true
  | .error _ => false

/-- The resolution of one feed day as performed inside the FetchAll loop:
parse the day stamp, then fetch that day. -/
def dayResolve (c : Client) (env : Env) (d : XRefRawData) :
    Except Err (GoTime × List ExchangeRate) :=
  match parseDate d.RateTime with
  | none => .error (.timeParseFailed d.RateTime)
  | some t => ((Fetch c env t).2).map (fun rs => (t, rs))

/-- Round half away from zero, the rounding rule named by the specification. -/
def roundHalfAwayFromZero (x : ℚ) : ℤ :=
  if x < 0 then -⌊-x + 1 / 2⌋ else ⌊x + 1 / 2⌋

/-- toFixed as worded by the specification: floor the precision to at least 1,
round half away from zero on the scaled value, rescale. -/
def specToFixed (x : ℚ) (prec : ℤ) : ℚ :=
  (roundHalfAwayFromZero (x * (10 : ℚ) ^ (max prec 1).toNat) : ℚ) /
    (10 : ℚ) ^ (max prec 1).toNat

/-- The conversion formula as worded by the specification: round the amount to
2 digits, multiply by the cross rate rounded to the configured precision, round
the product to the configured precision again. -/
def specCrossFormula (prec : ℤ) (amount ri rt : ℚ) : Option ℚ :=
  (FloatToFixed amount 2).bind (fun a2 =>
    (FloatToFixed (rt / ri) prec).bind (fun cr =>
      FloatToFixed (a2 * cr) prec))

/-! Concrete data used by witnesses and counterexamples.  The feed mirrors the
repository's own test fixture (day 2016-11-11 with USD 1.002 and CHF 1.03). -/

def usdStr : String := "USD"

def chfStr : String := "CHF"

def plnStr : String := "PLN"

def rate1002 : String := "1.002"

def rate103 : String := "1.03"

def rate2 : String := "2"

def day20161111 : String := "2016-11-11"

def day20161109 : String := "2016-11-09"

def day20161108 : String := "2016-11-08"

def day19990101 : String := "1999-01-01"

def d16_11_11 : GoTime := { year := 2016, month := 11, day := 11 }

def d16_11_09 : GoTime := { year := 2016, month := 11, day := 9 }

def d16_11_08 : GoTime := { year := 2016, month := 11, day := 8 }

def d99_01_01 : GoTime := { year := 1999, month := 1, day := 1 }

def ratesRawEx : List RawExchangeRate :=
  [{ Currency := usdStr, Rate := rate1002 }, { Currency := chfStr, Rate := rate103 }]

def feedEx : XRefRawResponse :=
  { Data := [{ RateTime := day20161111, Rates := ratesRawEx }] }

def usdRec : ExchangeRate := { Currency := usdStr, Rate := some (1002 / 1000) }

def chfRec : ExchangeRate := { Currency := chfStr, Rate := some (103 / 100) }

/-- The day's rates after resolution at precision 4. -/
def rsEx : List ExchangeRate := [usdRec, chfRec]

/-- A client holding the example feed, whose TTL makes the next call skip the
network (last fetch at second 100, TTL 60 s, clock still at second 100). -/
def clientEx : Client :=
  { XRefData := some feedEx, RefreshInterval := 60, prec := 4, lastFetched := 100 }

/-- Clock at second 100; the transport would fail if it were consulted. -/
def envSkip : Env := { now := 100, outcome := .transportErr }

def dayA : XRefRawData :=
  { RateTime := day20161111, Rates := [{ Currency := plnStr, Rate := rate2 }] }

/-- A day that is present but carries no rates. -/
def dayB : XRefRawData := { RateTime := day20161108, Rates := [] }

def dayC : XRefRawData :=
  { RateTime := day20161109, Rates := [{ Currency := plnStr, Rate := rate2 }] }

def feedAllEx : XRefRawResponse := { Data := [dayA, dayB, dayC] }

def rsPln : List ExchangeRate := [{ Currency := plnStr, Rate := some 2 }]

def clientAllEx : Client :=
  { XRefData := some feedAllEx, RefreshInterval := 60, prec := 4, lastFetched := 100 }

def emptyResp : XRefRawResponse := { Data := [] }

/-- A client with a cached document and TTL zero (always re-fetch). -/
def clientC1 : Client :=
  { XRefData := some feedEx, RefreshInterval := 0, prec := 4, lastFetched := 100 }

/-- Clock at second 200; the decoder fails, leaving an empty document. -/
def envC1 : Env := { now := 200, outcome := .decodeErr emptyResp }

/-- Clock at second 200; the transport fails. -/
def envNet : Env := { now := 200, outcome := .transportErr }

/-- A freshly constructed client whose TTL (in seconds) exceeds the maximal Go
Duration of 9223372036 whole seconds. -/
def clientC6 : Client := New 4 9223372037

/-- A clock reading of year 2026 (about 63.8 billion seconds after Go's zero
time, year 1); the transport would fail if it were consulted. -/
def envC6 : Env := { now := 63797000000, outcome := .transportErr }

/-! Helper lemmas: evaluation of the rounding core. -/

theorem roundFloat_nonneg_eval (x : ℚ) (n : ℕ) (h0 : 0 ≤ x)
    (hn : ⌊x + 1 / 2⌋ = (n : ℤ)) (hlt : (n : ℤ) < 2 ^ 64) :
    roundFloat x = some n := by
  unfold roundFloat goFloatToUInt64 goTrunc copysignHalf
  rw [if_neg (not_lt.mpr h0), if_neg (by linarith : ¬ x + 1 / 2 < 0), hn,
    if_pos ⟨Int.ofNat_nonneg n, hlt⟩]
  simp

theorem FloatToFixed_pos_eval (num : ℚ) (prec : ℤ) (p n : ℕ) (v : ℚ)
    (hp : (if prec < 1 then 1 else prec).toNat = p)
    (h0 : 0 ≤ num)
    (hn : ⌊num * 10 ^ p + 1 / 2⌋ = (n : ℤ))
    (hlt : (n : ℤ) < 2 ^ 64)
    (hv : (n : ℚ) / 10 ^ p = v) :
    FloatToFixed num prec = some v := by
  unfold FloatToFixed
  rw [hp, roundFloat_nonneg_eval (num * 10 ^ p) n
    (mul_nonneg h0 (by positivity)) hn hlt]
  simp [hv]

theorem roundFloat_neg_none (x : ℚ) (hx : x < 0) (h : ⌈x + -(1 / 2)⌉ < 0) :
    roundFloat x = none := by
  unfold roundFloat goFloatToUInt64 goTrunc copysignHalf
  rw [if_pos hx, if_pos (by linarith : x + -(1 / 2) < 0), if_neg]
  rintro ⟨h0, -⟩
  omega

/-- C4, counterexample: the claim asserts that for every value x the program's
toFixed performs round-half-away-from-zero on the scaled value.  At x = -0.46
with precision 1 the scaled-and-shifted value -5.1 truncates to -5, which is
not representable in uint64, so Go's conversion is implementation-dependent
(modelled as none) and, being a uint64 quotient under every implementation,
can never equal the claimed rounded value -0.5. -/
theorem C4_negative_counterexample :
    FloatToFixed (-(46 / 100)) 1 = none ∧ specToFixed (-(46 / 100)) 1 = -(1 / 2) := by
  constructor
  · have hc : ⌈(-(46 / 100) * 10 ^ 1 + -(1 / 2) : ℚ)⌉ < 0 := by
      have h1 : ⌈(-(46 / 100) * 10 ^ 1 + -(1 / 2) : ℚ)⌉ ≤ (-1 : ℤ) := by
        apply Int.ceil_le.mpr
        push_cast
        norm_num
      omega
    unfold FloatToFixed
    rw [show ((if (1 : ℤ) < 1 then (1 : ℤ) else 1)).toNat = 1 from by decide,
      roundFloat_neg_none _ (by norm_num) hc]
    rfl
  · unfold specToFixed roundHalfAwayFromZero
    rw [show ((max (1 : ℤ) 1)).toNat = 1 from by decide,
      if_pos (by norm_num : (-(46 / 100) : ℚ) * 10 ^ 1 < 0)]
    have hf : ⌊(-(-(46 / 100) * 10 ^ 1) + 1 / 2 : ℚ)⌋ = (5 : ℤ) := by
      norm_num [Int.floor_eq_iff]
    rw [hf]
    push_cast
    norm_num

/-- C4 (amended): FloatToFixed floors the precision to a minimum of 1 (for
p < 1 it behaves exactly as p = 1), and for every x that is non-negative and
whose scaled value stays below 2^64 it performs round-half-away-from-zero on
x scaled by 10^p and rescaled down.  For negative x, or once the scaled value
reaches the uint64 range limit, the float-to-uint64 conversion in roundFloat
is implementation-dependent per the Go specification, so the
round-half-away-from-zero description does not apply there. -/
theorem C4_toFixed_amended :
    (∀ (x : ℚ) (p : ℤ), p < 1 → FloatToFixed x p = FloatToFixed x 1) ∧
    (∀ (x : ℚ) (p : ℤ), 0 ≤ x →
      x * 10 ^ (max p 1).toNat + 1 / 2 < 2 ^ 64 →
      FloatToFixed x p = some (specToFixed x p)) := by
  constructor
  · intro x p hp
    unfold FloatToFixed
    rw [if_pos hp, if_neg (by norm_num : ¬ (1 : ℤ) < 1)]
  · intro x p hx hlt
    have hpe : (if p < 1 then 1 else p) = max p 1 := by
      rcases lt_or_le p 1 with h | h
      · rw [if_pos h, max_eq_right h.le]
      · rw [if_neg (not_lt.mpr h), max_eq_left h]
    unfold FloatToFixed specToFixed roundHalfAwayFromZero roundFloat
      goFloatToUInt64 goTrunc copysignHalf
    rw [hpe]
    have he0 : (0 : ℚ) < 10 ^ (max p 1).toNat := by positivity
    have hx0 : 0 ≤ x * 10 ^ (max p 1).toNat := mul_nonneg hx he0.le
    rw [if_neg (not_lt.mpr hx0)]
    rw [if_neg (by linarith : ¬ x * 10 ^ (max p 1).toNat + 1 / 2 < 0)]
    have hf0 : 0 ≤ ⌊x * 10 ^ (max p 1).toNat + 1 / 2⌋ :=
      Int.floor_nonneg.mpr (by linarith)
    have hflt : ⌊x * 10 ^ (max p 1).toNat + 1 / 2⌋ < 2 ^ 64 := by
      refine Int.floor_lt.mpr ?_
      push_cast
      linarith
    rw [if_pos ⟨hf0, hflt⟩, if_neg (not_lt.mpr hx0)]
    simp only [Option.map_some']
    have hcast : ((⌊x * 10 ^ (max p 1).toNat + 1 / 2⌋.toNat : ℕ) : ℚ) =
        ((⌊x * 10 ^ (max p 1).toNat + 1 / 2⌋ : ℤ) : ℚ) := by
      exact_mod_cast congrArg (Int.cast : ℤ → ℚ) (Int.toNat_of_nonneg hf0)
    rw [hcast]

/-- C4, witness: precision 0 behaves as precision 1, and at x = 0.4251 with
precision 2 the rounded value matches round-half-away-from-zero. -/
theorem C4_toFixed_witness :
    FloatToFixed (4251 / 10000) 0 = FloatToFixed (4251 / 10000) 1 ∧
    FloatToFixed (4251 / 10000) 2 = some (specToFixed (4251 / 10000) 2) :=
  ⟨C4_toFixed_amended.1 (4251 / 10000) 0 (by norm_num),
    C4_toFixed_amended.2 (4251 / 10000) 2 (by norm_num) (by
      rw [show ((max (2 : ℤ) 1)).toNat = 2 from by decide]
      norm_num)⟩

/-! Helper lemmas: the fetch guard. -/

theorem fetchXML_skip (c : Client) (env : Env) (h : shouldSkip c env.now = true) :
    fetchXML c env = (c, none) := by
  simp [fetchXML, h]

/-- C1, counterexample: the claim asserts that a deserialization failure
leaves the cached document and the timestamp unchanged.  On a client holding
the example feed (TTL zero, last fetch at second 100), a decode failure at
second 200 whose partially decoded document is empty does propagate the fetch
error, but it also replaces the cached document and advances the timestamp:
fetchXML assigns both fields before inspecting the decode error. -/
theorem C1_cache_clobber_counterexample :
    (fetchXML clientC1 envC1).2 = some .fetchFailed ∧
    (fetchXML clientC1 envC1).1.XRefData ≠ clientC1.XRefData ∧
    (fetchXML clientC1 envC1).1.lastFetched ≠ clientC1.lastFetched := by
  decide

/-- C1 (amended): when the guard does not skip, a transport failure leaves the
cached document and the last-fetch timestamp unchanged and propagates the
fetch error; a deserialization failure also propagates the fetch error, but it
replaces the cached document with the partially decoded one and advances the
last-fetch timestamp to the current time. -/
theorem C1_fetch_failure_amended :
    (∀ (c : Client) (env : Env), shouldSkip c env.now = false →
      env.outcome = .transportErr → fetchXML c env = (c, some .fetchFailed)) ∧
    (∀ (c : Client) (env : Env) (doc : XRefRawResponse),
      shouldSkip c env.now = false → env.outcome = .decodeErr doc →
      fetchXML c env =
        ({ c with XRefData := some doc, lastFetched := env.now },
          some .fetchFailed)) := by
  constructor
  · intro c env h1 h2
    simp [fetchXML, h1, h2]
  · intro c env doc h1 h2
    simp [fetchXML, h1, h2]

/-- C1, witness: the transport-failure case at the TTL-zero client, and the
decode-failure case at the same client. -/
theorem C1_fetch_failure_witness :
    fetchXML clientC1 envNet = (clientC1, some .fetchFailed) ∧
    fetchXML clientC1 envC1 =
      ({ clientC1 with XRefData := some emptyResp, lastFetched := 200 },
        some .fetchFailed) :=
  ⟨C1_fetch_failure_amended.1 clientC1 envNet (by decide) rfl,
   C1_fetch_failure_amended.2 clientC1 envC1 emptyResp (by decide) rfl⟩

/-- C6, counterexample: the claim asserts that a fetch is always issued when no
fetch has ever occurred, regardless of TTL.  A freshly constructed client with
TTL 9223372037 seconds has never fetched (timestamp zero, no document), yet at
a year-2026 clock the saturated elapsed time (9223372036 seconds, the maximal
Go Duration) is below the TTL, so the guard skips: no fetch is issued (the
failing transport is never consulted and the state is unchanged). -/
theorem C6_huge_ttl_counterexample :
    clientC6.lastFetched = 0 ∧ clientC6.XRefData = none ∧
    fetchXML clientC6 envC6 = (clientC6, none) := by
  decide

/-- C6 (amended): with TTL zero the guard never skips (every call re-fetches);
with a positive TTL and elapsed time below the TTL the guard skips, and a
skipped call touches neither the network nor the client state; when the guard
does not skip, a successful fetch stores the document and advances the
timestamp; and a client that has never fetched re-fetches provided the TTL
does not exceed 9223372036 seconds (the maximal Go Duration in whole seconds,
at which the elapsed time since the zero timestamp saturates on any realistic
clock). -/
theorem C6_freshness_amended :
    (∀ (c : Client) (now : ℕ), c.RefreshInterval = 0 → shouldSkip c now = false) ∧
    (∀ (c : Client) (now : ℕ), 0 < c.RefreshInterval →
      (elapsedSeconds now c.lastFetched : ℤ) < c.RefreshInterval →
      shouldSkip c now = true) ∧
    (∀ (c : Client) (env : Env), shouldSkip c env.now = true →
      fetchXML c env = (c, none)) ∧
    (∀ (c : Client) (env : Env) (doc : XRefRawResponse),
      shouldSkip c env.now = false → env.outcome = .ok doc →
      fetchXML c env =
        ({ c with XRefData := some doc, lastFetched := env.now }, none)) ∧
    (∀ (c : Client) (now : ℕ), c.lastFetched = 0 →
      c.RefreshInterval ≤ 9223372036 → 9223372037 ≤ now →
      shouldSkip c now = false) := by
  refine ⟨?_, ?_, ?_, ?_, ?_⟩
  · intro c now h
    simp [shouldSkip, h]
  · intro c now h1 h2
    simp [shouldSkip, h2, h1]
  · exact fetchXML_skip
  · intro c env doc h1 h2
    simp [fetchXML, h1, h2]
  · intro c now h0 hTTL hnow
    have h1 : elapsedSeconds now c.lastFetched = 9223372036 := by
      unfold elapsedSeconds maxDurationNs
      rw [h0, Nat.sub_zero, min_eq_right]
      · norm_num
      · calc (2 : ℕ) ^ 63 - 1 ≤ 9223372037 * 1000000000 := by norm_num
          _ ≤ now * 1000000000 := Nat.mul_le_mul_right _ hnow
    have h2 : ¬ ((elapsedSeconds now c.lastFetched : ℤ) < c.RefreshInterval) := by
      rw [h1]
      push_cast
      omega
    simp [shouldSkip, h2]

/-- C6, witness: TTL zero re-fetches; a fresh cache within TTL skips and a
skipped call is a no-op; a non-skipped successful fetch stores the document;
and a never-fetched client with an ordinary TTL re-fetches in year 2026. -/
theorem C6_freshness_witness :
    shouldSkip clientC1 100 = false ∧
    shouldSkip clientEx 100 = true ∧
    fetchXML clientEx envSkip = (clientEx, none) ∧
    fetchXML clientC1 { now := 200, outcome := .ok emptyResp } =
      ({ clientC1 with XRefData := some emptyResp, lastFetched := 200 }, none) ∧
    shouldSkip (New 4 60) 63797000000 = false :=
  ⟨C6_freshness_amended.1 clientC1 100 rfl,
    C6_freshness_amended.2.1 clientEx 100 (by decide) (by decide),
    C6_freshness_amended.2.2.1 clientEx envSkip (by decide),
    C6_freshness_amended.2.2.2.1 clientC1 _ emptyResp (by decide) rfl,
    C6_freshness_amended.2.2.2.2 (New 4 60) 63797000000 rfl (by decide) (by decide)⟩

/-! Helper lemmas: currency-leg resolution. -/

theorem scanLeg_some_of_mem (code : String) (rs : List ExchangeRate) :
    ∀ acc : Option ExchangeRate,
      ((∃ r ∈ rs, r.Currency = code) ∨ (∃ r, acc = some r ∧ r.Currency = code)) →
      ∃ r, rs.foldl (fun a x => if code = x.Currency then some x else a) acc = some r ∧
        r.Currency = code := by
  induction rs with
  | nil =>
    intro acc h
    simp only [List.foldl_nil]
    rcases h with ⟨r, hr, -⟩ | h
    · exact absurd hr (List.not_mem_nil r)
    · exact h
  | cons x xs ih =>
    intro acc h
    simp only [List.foldl_cons]
    by_cases hx : code = x.Currency
    · exact ih _ (Or.inr ⟨x, by rw [if_pos hx], hx.symm⟩)
    · rcases h with ⟨r, hr, hc⟩ | ⟨r, ha, hc⟩
      · rcases List.mem_cons.mp hr with rfl | hr2
        · exact absurd hc.symm hx
        · exact ih _ (Or.inl ⟨r, hr2, hc⟩)
      · exact ih _ (Or.inr ⟨r, by rw [if_neg hx]; exact ha, hc⟩)

theorem scanLeg_mem (code : String) (rs : List ExchangeRate)
    (h : ∃ r ∈ rs, r.Currency = code) :
    ∃ r, scanLeg code rs = some r ∧ r.Currency = code :=
  scanLeg_some_of_mem code rs none (Or.inl h)

theorem resolveLegs_total (rs : List ExchangeRate) (s tg : String)
    (hs : s = EUCurr ∨ ∃ r ∈ rs, r.Currency = s)
    (ht : tg = EUCurr ∨ ∃ r ∈ rs, r.Currency = tg) :
    ∃ i t, resolveLegs rs s tg = (some i, some t) := by
  unfold resolveLegs
  by_cases he : s = EUCurr ∨ tg = EUCurr
  · rw [if_pos he]
    have h1 : ∃ i, (if s = EUCurr then some euroRec else scanLeg s rs) = some i := by
      by_cases h : s = EUCurr
      · exact ⟨euroRec, by rw [if_pos h]⟩
      · obtain ⟨r, hr, -⟩ := scanLeg_mem s rs (hs.resolve_left h)
        exact ⟨r, by rw [if_neg h]; exact hr⟩
    have h2 : ∃ t, (if tg = EUCurr then some euroRec else scanLeg tg rs) = some t := by
      by_cases h : tg = EUCurr
      · exact ⟨euroRec, by rw [if_pos h]⟩
      · obtain ⟨r, hr, -⟩ := scanLeg_mem tg rs (ht.resolve_left h)
        exact ⟨r, by rw [if_neg h]; exact hr⟩
    obtain ⟨i, hi⟩ := h1
    obtain ⟨t, ht2⟩ := h2
    exact ⟨i, t, by rw [hi, ht2]⟩
  · rw [if_neg he]
    push_neg at he
    obtain ⟨i, hi, -⟩ := scanLeg_mem s rs (hs.resolve_left he.1)
    obtain ⟨t, ht2, -⟩ := scanLeg_mem tg rs (ht.resolve_left he.2)
    exact ⟨i, t, by rw [hi, ht2]⟩

theorem resolveLegs_same (rs : List ExchangeRate) (C : String)
    (h : C = EUCurr ∨ ∃ r ∈ rs, r.Currency = C) :
    ∃ r, resolveLegs rs C C = (some r, some r) := by
  unfold resolveLegs
  by_cases he : C = EUCurr
  · exact ⟨euroRec, by rw [if_pos (Or.inl he), if_pos he]⟩
  · obtain ⟨r, hr, -⟩ := scanLeg_mem C rs (h.resolve_left he)
    rw [if_neg (by tauto : ¬ (C = EUCurr ∨ C = EUCurr))]
    exact ⟨r, by rw [hr]⟩

/-- C7: in Convert's leg resolution, a leg whose code is the reference
currency EUR always resolves to the synthetic record with rate exactly 1.0,
for every day's resolved rate list (whether or not EUR appears in it) and
for every other code on the opposite leg. -/
theorem C7_reference_currency :
    ∀ (rs : List ExchangeRate) (other : String),
      (resolveLegs rs EUCurr other).1 = some euroRec ∧
      (resolveLegs rs other EUCurr).2 = some euroRec ∧
      euroRec.Rate = some EURate := by
  intro rs other
  refine ⟨?_, ?_, rfl⟩
  · unfold resolveLegs
    rw [if_pos (Or.inl rfl)]
    simp
  · unfold resolveLegs
    rw [if_pos (Or.inr rfl)]
    simp

/-! Helper lemmas: Fetch on the skip path. -/

theorem Fetch_skip (c : Client) (env : Env) (t : GoTime) (resp : XRefRawResponse)
    (hs : shouldSkip c env.now = true) (hd : c.XRefData = some resp) :
    Fetch c env t = (c, fetchBody resp (formatDate t) c.prec) := by
  unfold Fetch
  rw [fetchXML_skip c env hs]
  simp only [hd]

theorem Fetch_skip_fst (c : Client) (env : Env) (t : GoTime)
    (hs : shouldSkip c env.now = true) : (Fetch c env t).1 = c := by
  unfold Fetch
  rw [fetchXML_skip c env hs]
  cases hx : c.XRefData with
  | none => simp [hx]
  | some resp => simp [hx]

theorem fetchBody_notFound (resp : XRefRawResponse) (timeKey : String) (prec : ℤ)
    (h : lookupDay resp timeKey = []) :
    fetchBody resp timeKey prec = .error (.dateNotFound timeKey) := by
  unfold fetchBody
  simp [h]

theorem fetchBody_found (resp : XRefRawResponse) (timeKey : String) (prec : ℤ)
    (h : lookupDay resp timeKey ≠ []) :
    fetchBody resp timeKey prec = resolveRates (lookupDay resp timeKey) prec := by
  unfold fetchBody
  rw [if_neg (by simpa using h)]

theorem Fetch_skip_ok (c : Client) (env : Env) (t : GoTime) (resp : XRefRawResponse)
    (rs : List ExchangeRate)
    (hs : shouldSkip c env.now = true)
    (hd : c.XRefData = some resp)
    (hne : lookupDay resp (formatDate t) ≠ [])
    (hr : resolveRates (lookupDay resp (formatDate t)) c.prec = .ok rs) :
    Fetch c env t = (c, .ok rs) := by
  rw [Fetch_skip c env t resp hs hd, fetchBody_found resp _ c.prec hne, hr]

/-- C8: on a fresh cache, the day fetch fails with the date-not-found error
(carrying the date formatted as YYYY-MM-DD, whose message states the
90-day/excludes-today constraint) both when no cached day matches the
formatted date and when a day matches but its raw rate list is empty; the two
cases produce the same error kind. -/
theorem C8_dateNotFound (c : Client) (env : Env) (t : GoTime) (resp : XRefRawResponse)
    (hs : shouldSkip c env.now = true)
    (hd : c.XRefData = some resp)
    (h : resp.Data.find? (fun d => d.RateTime == formatDate t) = none ∨
      ∃ day, resp.Data.find? (fun d => d.RateTime == formatDate t) = some day ∧
        day.Rates = []) :
    (Fetch c env t).2 = .error (.dateNotFound (formatDate t)) := by
  have hld : lookupDay resp (formatDate t) = [] := by
    unfold lookupDay
    rcases h with h | ⟨day, hf, hr⟩
    · rw [h]
      rfl
    · rw [hf]
      simp [hr]
  rw [Fetch_skip c env t resp hs hd]
  simp [fetchBody_notFound resp (formatDate t) c.prec hld]

/-- C8, witness: a date absent from the feed and a date whose day entry has an
empty rate list both fail with the same date-not-found error kind. -/
theorem C8_dateNotFound_witness :
    (Fetch clientEx envSkip d99_01_01).2 = .error (.dateNotFound day19990101) ∧
    (Fetch clientAllEx envSkip d16_11_08).2 = .error (.dateNotFound day20161108) := by
  constructor
  · have hf : formatDate d99_01_01 = day19990101 := by decide
    rw [← hf]
    exact C8_dateNotFound clientEx envSkip d99_01_01 feedEx (by decide) rfl
      (Or.inl (by decide))
  · have hf : formatDate d16_11_08 = day20161108 := by decide
    rw [← hf]
    exact C8_dateNotFound clientAllEx envSkip d16_11_08 feedAllEx (by decide) rfl
      (Or.inr ⟨dayB, by decide, rfl⟩)

/-! Helper lemmas: the FetchAll loop on the skip path. -/

theorem fetchAllLoop_failFast (c : Client) (env : Env)
    (hs : shouldSkip c env.now = true) :
    ∀ (pre : List XRefRawData) (bad : XRefRawData) (post : List XRefRawData) (e : Err),
      (∀ d ∈ pre, exceptIsOk (dayResolve c env d) = true) →
      dayResolve c env bad = .error e →
      fetchAllLoop c env (pre ++ bad :: post) = (c, .error e) := by
  intro pre
  induction pre with
  | nil =>
    intro bad post e hpre hbad
    simp only [List.nil_append]
    unfold fetchAllLoop
    unfold dayResolve at hbad
    cases hp : parseDate bad.RateTime with
    | none =>
      simp only [hp] at hbad
      simp only [hp]
      simp only [Except.error.injEq] at hbad
      rw [hbad]
    | some t =>
      simp only [hp] at hbad
      cases hF2 : (Fetch c env t).2 with
      | ok v =>
        rw [hF2] at hbad
        simp [Except.map] at hbad
      | error e2 =>
        rw [hF2] at hbad
        simp only [Except.map, Except.error.injEq] at hbad
        have hF : Fetch c env t = (c, .error e2) :=
          Prod.ext (Fetch_skip_fst c env t hs) hF2
        simp only [hp, hF, hbad]
  | cons d ds ih =>
    intro bad post e hpre hbad
    have hd := hpre d (List.mem_cons_self d ds)
    unfold dayResolve at hd
    cases hp : parseDate d.RateTime with
    | none =>
      simp only [hp] at hd
      simp [exceptIsOk] at hd
    | some t =>
      simp only [hp] at hd
      cases hF2 : (Fetch c env t).2 with
      | error e2 =>
        rw [hF2] at hd
        simp [exceptIsOk, Except.map] at hd
      | ok rates =>
        have hF : Fetch c env t = (c, .ok rates) :=
          Prod.ext (Fetch_skip_fst c env t hs) hF2
        simp only [List.cons_append]
        unfold fetchAllLoop
        simp only [hp, hF]
        have hrec := ih bad post e
          (fun d' hd' => hpre d' (List.mem_cons_of_mem d hd')) hbad
        rw [hrec]

/-- C9: on a fresh cache, if the resolution of any single day of the cached
feed fails (the witness instantiates this with a day holding an empty rate
list, which resolves as not-found), FetchAll aborts the whole enumeration,
returns that day's specific error, and produces no partial result map. -/
theorem C9_fetchAll_failFast (c : Client) (env : Env) (resp : XRefRawResponse)
    (pre : List XRefRawData) (bad : XRefRawData) (post : List XRefRawData) (e : Err)
    (hs : shouldSkip c env.now = true)
    (hd : c.XRefData = some resp)
    (hdata : resp.Data = pre ++ bad :: post)
    (hpre : ∀ d ∈ pre, exceptIsOk (dayResolve c env d) = true)
    (hbad : dayResolve c env bad = .error e) :
    FetchAll c env = (c, .error e) := by
  unfold FetchAll
  rw [fetchXML_skip c env hs]
  simp only [hd, hdata]
  exact fetchAllLoop_failFast c env hs pre bad post e hpre hbad

/-- C9, witness: a three-day feed whose middle day has an empty rate list; the
enumeration aborts with that day's date-not-found error and no map of the two
resolvable days is returned. -/
theorem C9_fetchAll_witness :
    FetchAll clientAllEx envSkip = (clientAllEx, .error (.dateNotFound day20161108)) :=
  C9_fetchAll_failFast clientAllEx envSkip feedAllEx [dayA] dayB [dayC]
    (.dateNotFound day20161108) (by decide) rfl rfl
    (by
      intro d hd'
      simp only [List.mem_singleton] at hd'
      subst hd'
      decide)
    rfl

/-! Helper lemmas: concrete evaluations for the conversion scenario. -/

theorem goParseFloat_1002 : goParseFloat rate1002 = some (1002 / 1000) := by
  have h : rate1002.data = ['1', '.', '0', '0', '2'] := rfl
  simp [goParseFloat, h, parseUnsignedDecimal, parseDigitsAux, digitVal]
  norm_num

theorem goParseFloat_103 : goParseFloat rate103 = some (103 / 100) := by
  have h : rate103.data = ['1', '.', '0', '3'] := rfl
  simp [goParseFloat, h, parseUnsignedDecimal, parseDigitsAux, digitVal]
  norm_num

theorem goParseFloat_2 : goParseFloat rate2 = some 2 := by
  have h : rate2.data = ['2'] := rfl
  simp [goParseFloat, h, parseUnsignedDecimal, parseDigitsAux, digitVal]

theorem FF_1002 : FloatToFixed (1002 / 1000) 4 = some (1002 / 1000) :=
  FloatToFixed_pos_eval (1002 / 1000) 4 4 10020 (1002 / 1000) (by decide)
    (by norm_num) (by norm_num [Int.floor_eq_iff]) (by norm_num) (by norm_num)

theorem FF_103 : FloatToFixed (103 / 100) 4 = some (103 / 100) :=
  FloatToFixed_pos_eval (103 / 100) 4 4 10300 (103 / 100) (by decide)
    (by norm_num) (by norm_num [Int.floor_eq_iff]) (by norm_num) (by norm_num)

theorem FF_cross : FloatToFixed ((1002 / 1000 : ℚ) / (103 / 100)) 4 = some (9728 / 10000) :=
  FloatToFixed_pos_eval ((1002 / 1000 : ℚ) / (103 / 100)) 4 4 9728 (9728 / 10000)
    (by decide) (by norm_num) (by norm_num [Int.floor_eq_iff]) (by norm_num) (by norm_num)

theorem FF_amount : FloatToFixed (10 : ℚ) 2 = some 10 :=
  FloatToFixed_pos_eval (10 : ℚ) 2 2 1000 10 (by decide)
    (by norm_num) (by norm_num [Int.floor_eq_iff]) (by norm_num) (by norm_num)

theorem FF_prod : FloatToFixed ((10 : ℚ) * (9728 / 10000)) 4 = some (9728 / 1000) :=
  FloatToFixed_pos_eval ((10 : ℚ) * (9728 / 10000)) 4 4 97280 (9728 / 1000) (by decide)
    (by norm_num) (by norm_num [Int.floor_eq_iff]) (by norm_num) (by norm_num)

theorem resolveRates_ex : resolveRates ratesRawEx 4 = .ok rsEx := by
  simp [ratesRawEx, resolveRates, newExchangeRate, goParseFloat_1002, goParseFloat_103,
    ExchangeRate.Round, FF_1002, FF_103, rsEx, usdRec, chfRec, Except.map]

theorem Fetch_scenario : Fetch clientEx envSkip d16_11_11 = (clientEx, .ok rsEx) :=
  Fetch_skip_ok clientEx envSkip d16_11_11 feedEx rsEx (by decide) rfl (by decide)
    (by
      rw [show lookupDay feedEx (formatDate d16_11_11) = ratesRawEx from by decide,
        show clientEx.prec = (4 : ℤ) from rfl]
      exact resolveRates_ex)

theorem Convert_scenario_eval :
    Convert clientEx envSkip 10 chfStr usdStr d16_11_11 =
      (clientEx, .ok (some (9728 / 1000))) := by
  unfold Convert
  have hlegs : resolveLegs rsEx chfStr usdStr = (some chfRec, some usdRec) := rfl
  simp only [Fetch_scenario, hlegs]
  rw [show clientEx.prec = (4 : ℤ) from rfl]
  unfold computeExchangeValue
  rw [if_neg (by norm_num : ¬ (10 : ℚ) < 0),
    if_neg (by decide : ¬ chfRec.Currency = usdRec.Currency)]
  simp only [chfRec, usdRec, Option.bind_eq_bind', Option.some_bind']
  rw [if_neg (by norm_num : ¬ (103 / 100 : ℚ) = 0), FF_cross]
  simp only [Option.bind_eq_bind', Option.some_bind']
  rw [FF_amount]
  simp only [Option.bind_eq_bind', Option.some_bind']
  rw [FF_prod]

/-- C3, counterexample: the claim's scenario asserts that on a feed whose day
2016-11-11 holds USD 1.002 and CHF 1.03, converting 10 CHF to USD at
precision 4 yields 9.7281.  The program (like the repository's own test)
yields 9.728: the cross rate 1.002/1.03 is first rounded to 0.9728, and
10 x 0.9728 = 9.728 needs no further adjustment. -/
theorem C3_scenario_counterexample :
    Convert clientEx envSkip 10 chfStr usdStr d16_11_11 =
      (clientEx, .ok (some (9728 / 1000))) ∧
    (9728 / 1000 : ℚ) ≠ 97281 / 10000 :=
  ⟨Convert_scenario_eval, by norm_num⟩

/-- C3 (amended): for every non-negative amount and every pair of distinct
resolved currency legs with determinate rates (source rate non-zero), the
conversion result equals round(amount to 2 digits) x round(target rate /
source rate to the configured precision), with the product rounded again to
the configured precision; on the feed whose day 2016-11-11 holds USD 1.002 and
CHF 1.03, converting 10 CHF to USD at precision 4 yields 9.728 (not 9.7281 as
the claim's scenario states). -/
theorem C3_formula_amended :
    (∀ (p : ℤ) (a ri rt : ℚ) (iR tR : ExchangeRate),
      0 ≤ a → iR.Currency ≠ tR.Currency →
      iR.Rate = some ri → ri ≠ 0 → tR.Rate = some rt →
      computeExchangeValue p a iR tR = .ok (specCrossFormula p a ri rt)) ∧
    Convert clientEx envSkip 10 chfStr usdStr d16_11_11 =
      (clientEx, .ok (some (9728 / 1000))) := by
  constructor
  · intro p a ri rt iR tR ha hc hiR hri htR
    unfold computeExchangeValue specCrossFormula
    rw [if_neg (not_lt.mpr ha), if_neg hc, hiR, htR]
    simp only [Option.bind_eq_bind', Option.some_bind']
    rw [if_neg hri]
    cases FloatToFixed (rt / ri) p <;> cases FloatToFixed a 2 <;>
      simp [Option.bind_eq_bind', Option.some_bind']
  · exact Convert_scenario_eval

/-- C3, witness: the formula at the CHF and USD legs of the scenario feed. -/
theorem C3_formula_witness :
    computeExchangeValue 4 10 chfRec usdRec =
      .ok (specCrossFormula 4 10 (103 / 100) (1002 / 1000)) :=
  C3_formula_amended.1 4 10 (103 / 100) (1002 / 1000) chfRec usdRec
    (by norm_num) (by decide) rfl (by norm_num) rfl

/-- C5: identity conversion.  On a fresh cache, for every non-negative amount,
every currency code resolvable on the requested day (or the reference
currency), converting the amount from the code to itself returns the amount
rounded to the configured precision: exactly FloatToFixed of the amount. -/
theorem C5_identity_conversion (c : Client) (env : Env) (a : ℚ) (C : String)
    (t : GoTime) (resp : XRefRawResponse) (rs : List ExchangeRate)
    (ha : 0 ≤ a)
    (hs : shouldSkip c env.now = true)
    (hd : c.XRefData = some resp)
    (hne : lookupDay resp (formatDate t) ≠ [])
    (hr : resolveRates (lookupDay resp (formatDate t)) c.prec = .ok rs)
    (hC : C = EUCurr ∨ ∃ r ∈ rs, r.Currency = C) :
    (Convert c env a C C t).2 = .ok (FloatToFixed a c.prec) := by
  unfold Convert
  obtain ⟨r, hlegs⟩ := resolveLegs_same rs C hC
  simp only [Fetch_skip_ok c env t resp rs hs hd hne hr, hlegs]
  unfold computeExchangeValue
  rw [if_neg (not_lt.mpr ha), if_pos rfl]

/-- C5, witness: converting 10 USD to USD on the scenario feed at precision 4
yields FloatToFixed 10 4. -/
theorem C5_identity_witness :
    (Convert clientEx envSkip 10 usdStr usdStr d16_11_11).2 =
      .ok (FloatToFixed 10 4) :=
  C5_identity_conversion clientEx envSkip 10 usdStr d16_11_11 feedEx rsEx
    (by norm_num) (by decide) rfl (by decide)
    (by
      rw [show lookupDay feedEx (formatDate d16_11_11) = ratesRawEx from by decide,
        show clientEx.prec = (4 : ℤ) from rfl]
      exact resolveRates_ex)
    (Or.inr ⟨usdRec, by simp [rsEx], rfl⟩)

/-- C2, counterexample: the claim asserts that a negative amount fails with
the invalid-amount error for every date and that this check runs before any
network or cache activity.  With amount -10 and a date absent from the cached
feed, Convert fails with the date-not-found error instead, and with a
TTL-zero client whose transport is failing it fails with the fetch error:
the fetch and the day lookup run before the amount is ever inspected. -/
theorem C2_error_shadowing_counterexample :
    (Convert clientEx envSkip (-10) usdStr chfStr d99_01_01).2 =
      .error (.dateNotFound day19990101) ∧
    Err.dateNotFound day19990101 ≠ Err.invalidAmount ∧
    (Convert clientC1 envNet (-10) usdStr chfStr d16_11_11).2 =
      .error .fetchFailed := by
  refine ⟨rfl, by decide, rfl⟩

/-- C2 (amended): a negative amount never yields a successful conversion; and
when the fetch step is a fresh-cache skip, the requested day resolves
non-empty, and both currency codes resolve (or are the reference currency),
the failure is exactly the invalid-amount error.  The amount check happens in
computeExchangeValue, after the fetch and the currency resolution, so an
earlier failure (fetch, date, currency) shadows it. -/
theorem C2_negative_amount_amended :
    (∀ (c : Client) (env : Env) (a : ℚ) (s tg : String) (t : GoTime) (v : Option ℚ),
      a < 0 → (Convert c env a s tg t).2 ≠ .ok v) ∧
    (∀ (c : Client) (env : Env) (a : ℚ) (s tg : String) (t : GoTime)
      (resp : XRefRawResponse) (rs : List ExchangeRate),
      a < 0 →
      shouldSkip c env.now = true →
      c.XRefData = some resp →
      lookupDay resp (formatDate t) ≠ [] →
      resolveRates (lookupDay resp (formatDate t)) c.prec = .ok rs →
      (s = EUCurr ∨ ∃ r ∈ rs, r.Currency = s) →
      (tg = EUCurr ∨ ∃ r ∈ rs, r.Currency = tg) →
      (Convert c env a s tg t).2 = .error .invalidAmount) := by
  constructor
  · intro c env a s tg t v ha
    unfold Convert
    cases hF : Fetch c env t with
    | mk c1 r =>
      cases r with
      | error e => simp
      | ok dayData =>
        rcases hL : resolveLegs dayData s tg with ⟨iL, tL⟩
        cases iL with
        | none => cases tL <;> simp [hL]
        | some i =>
          cases tL with
          | none => simp [hL]
          | some t2 =>
            simp only [hL]
            unfold computeExchangeValue
            rw [if_pos ha]
            simp
  · intro c env a s tg t resp rs ha hs hd hne hr hsrc htgt
    unfold Convert
    obtain ⟨i, t2, hlegs⟩ := resolveLegs_total rs s tg hsrc htgt
    simp only [Fetch_skip_ok c env t resp rs hs hd hne hr, hlegs]
    unfold computeExchangeValue
    rw [if_pos ha]

/-- C2, witness: a negative amount is never converted successfully, and with a
resolvable date and currencies it fails with the invalid-amount error. -/
theorem C2_negative_amount_witness :
    (Convert clientEx envSkip (-10) usdStr usdStr d16_11_11).2 ≠
      .ok (some (-10)) ∧
    (Convert clientEx envSkip (-10) usdStr chfStr d16_11_11).2 =
      .error .invalidAmount :=
  ⟨C2_negative_amount_amended.1 clientEx envSkip (-10) usdStr usdStr d16_11_11
      (some (-10)) (by norm_num),
    C2_negative_amount_amended.2 clientEx envSkip (-10) usdStr chfStr d16_11_11
      feedEx rsEx (by norm_num) (by decide) rfl (by decide)
      (by
        rw [show lookupDay feedEx (formatDate d16_11_11) = ratesRawEx from by decide,
          show clientEx.prec = (4 : ℤ) from rfl]
        exact resolveRates_ex)
      (Or.inr ⟨usdRec, by simp [rsEx], rfl⟩)
      (Or.inr ⟨chfRec, by simp [rsEx], rfl⟩)⟩

end Euroxref
